import Mathlib

/-!
Verification development for the agent-factory core: data model, name
sanitizer, instruction composer, remote-agent normalization, tool
resolution, and chat failure classification, embedded shallowly from
`agent_factory.py`, with theorems checking the specification's claims.
-/

set_option maxHeartbeats 1000000
set_option maxRecDepth 8192

/-- A single apostrophe character, used inside user-facing message strings. -/
def apos : String := ⟨[Char.ofNat 39]⟩

/-- Python attribute/key access with a default: `getattr(o, f, d)` or
`o.get(f, d)`.  The outer `Option` is field presence; the inner value may
itself be Python `None` (modelled as `Option α` with `none`). -/
def pyAttr (field : Option (Option α)) (dflt : Option α) : Option α :=
  field.getD dflt

/-- Python `x or d` for a possibly-`None` string `x`: `None` and `""` are
falsy and yield the fallback. -/
def pyStrOr (v : Option String) (d : String) : String :=
  match v with
  | none => d
  | some s => if s = "" then d else s

/-- Python `"sub" in s` substring membership test. -/
def strContains (sub s : String) : Bool :=
  decide (sub.data <:+: s.data)

/-- A tool entry inside a remote agent definition: the boundary delivers it
either as a keyed mapping or as an attribute-bearing object; `ty` models the
optional `type` field (absent, present-as-`None`, or a tag string). -/
inductive ToolEntry where
  | dictTool (ty : Option (Option String))
  | objTool (ty : Option (Option String))
deriving DecidableEq

/-- A remote agent definition, which arrives either as a keyed mapping
(`dict`) or as an attribute-bearing object (e.g. `PromptAgentDefinition`).
`hasOtherEntries` records whether a dict-shaped definition holds further
keys, which matters only for Python truthiness of the dict. -/
inductive RemoteDefinition where
  | dictShape (model : Option (Option String))
      (tools : Option (Option (List ToolEntry))) (hasOtherEntries : Bool)
  | objShape (model : Option (Option String))
      (tools : Option (Option (List ToolEntry)))
deriving DecidableEq

/-- Python truthiness of a definition value: an empty dict is falsy, any
object is truthy. -/
def RemoteDefinition.truthy : RemoteDefinition → Bool
  | .dictShape m t other => m.isSome || t.isSome || other
  | .objShape _ _ => true

/-- The latest version record of a remote agent (`agent.versions.latest`):
its optional `definition`, `description` (absent / `None` / string) and
`created_at` (already rendered through `str`, `none` when absent). -/
structure LatestVersion where
  definition : Option RemoteDefinition
  description : Option (Option String)
  created_at : Option String
deriving DecidableEq

/-- The `versions` attribute of a remote agent; `latest` is `none` when the
attribute is missing or falsy. -/
structure VersionsInfo where
  latest : Option LatestVersion
deriving DecidableEq

/-- A raw remote agent as enumerated by the service: id, optional name, and
optional `versions` (`none` when the attribute is missing or falsy). -/
structure RemoteAgent where
  id : String
  name : Option String
  versions : Option VersionsInfo
deriving DecidableEq

/-- `AgentConfig` dataclass: a locally authored agent configuration. -/
structure AgentConfig where
  id : String
  name : String
  description : String
  instructions : String
  created_at : String
deriving DecidableEq

/-- `FoundryAgent` dataclass: the normalized remote-agent summary, with the
dataclass defaults `has_tools = False`, `tool_types = None`.  A tool-type
entry may be Python `None` (when a dict tool carries `type: None`). -/
structure FoundryAgent where
  id : String
  name : String
  description : String
  model : String
  created_at : String
  has_tools : Bool := false
  tool_types : Option (List (Option String)) := none
deriving DecidableEq

/-- `MCPTool(server_label=…, server_url=…, project_connection_id=…,
allowed_tools=[], require_approval="never")` descriptor. -/
structure MCPTool where
  server_label : String
  server_url : String
  project_connection_id : String
  allowed_tools : List String
  require_approval : String
deriving DecidableEq

/-- `PromptAgentDefinition(model=…, instructions=…, tools=…)`; `tools` is
`none` when the Python code passes `None`. -/
structure PromptAgentDefinition where
  model : String
  instructions : String
  tools : Option (List MCPTool)
deriving DecidableEq

/-- A remote connection as enumerated by `client.connections.list()`:
`target` models `getattr(conn, 'target', '')` input (absent / `None` /
string). -/
structure Connection where
  name : String
  id : String
  target : Option (Option String)
deriving DecidableEq

/-- Default capability phrases substituted when the capability list is
falsy (from `generate_agent_instructions`). -/
def defaultCapabilities : List String :=
  ["Responder preguntas de manera clara y concisa",
   "Ayudar al usuario con sus consultas"]

/-- Default rules substituted when the rule list is falsy (from
`generate_agent_instructions`). -/
def defaultRules : List String :=
  ["Siempre mantén un tono profesional y respetuoso",
   "Si no sabes algo, admítelo honestamente",
   "Sé conciso pero completo en tus respuestas",
   "Usa emojis cuando sea apropiado para hacer la conversación más amena"]

/-- Renders a numbered rule line `f"{i+1}. {rule}"`. -/
def numberedRule (i : Nat) (rule : String) : String :=
  toString (i + 1) ++ ". " ++ rule

/-- `capabilities_text` computation of `generate_agent_instructions`:
a bullet list of the given capabilities, or the default block when the
argument is `None` or empty (Python falsiness). -/
def capabilitiesText (agent_capabilities : Option (List String)) : String :=
  match agent_capabilities with
  | some caps =>
    if caps.isEmpty then
      String.intercalate "\n" (defaultCapabilities.map (fun cap => "- " ++ cap))
    else
      String.intercalate "\n" (caps.map (fun cap => "- " ++ cap))
  | none =>
    String.intercalate "\n" (defaultCapabilities.map (fun cap => "- " ++ cap))

/-- `rules_text` computation of `generate_agent_instructions`: a 1-based
numbered list of the given rules, or the default block when the argument is
`None` or empty (Python falsiness). -/
def rulesText (agent_rules : Option (List String)) : String :=
  match agent_rules with
  | some rules =>
    if rules.isEmpty then
      String.intercalate "\n" (defaultRules.enum.map (fun p => numberedRule p.1 p.2))
    else
      String.intercalate "\n" (rules.enum.map (fun p => numberedRule p.1 p.2))
  | none =>
    String.intercalate "\n" (defaultRules.enum.map (fun p => numberedRule p.1 p.2))

/-- `generate_agent_instructions`: assembles the instruction document from
the fixed template, echoing purpose and personality and splicing in the
capability and rule blocks. -/
def generate_agent_instructions (agent_purpose : String)
    (agent_personality : String)
    (agent_capabilities : Option (List String))
    (agent_rules : Option (List String)) : String :=
  "Eres un asistente especializado con el siguiente propósito:\n\nPROPÓSITO PRINCIPAL:\n"
  ++ (agent_purpose
  ++ ("\n\nPERSONALIDAD:\n"
  ++ (agent_personality
  ++ ("\n\nCAPACIDADES:\n"
  ++ (capabilitiesText agent_capabilities
  ++ ("\n\nREGLAS DE COMPORTAMIENTO:\n"
  ++ (rulesText agent_rules
  ++ "\n\nFORMATO DE RESPUESTA:\n- Responde de manera clara y estructurada\n- Usa viñetas o numeración cuando sea apropiado\n- Incluye ejemplos cuando ayuden a clarificar\n")))))))

/-- ASCII letter or digit, as matched by `[a-zA-Z0-9]`. -/
def isAlnumB (c : Char) : Bool := c.isAlpha || c.isDigit

/-- Character class `[a-zA-Z0-9-]` kept by the first sanitizer step. -/
def isNameChar (c : Char) : Bool := isAlnumB c || c = '-'

/-- The hyphen predicate stripped by `strip('-')` and `rstrip('-')`. -/
def hyP : Char → Bool := fun c => c = '-'

/-- `re.sub(r'[^a-zA-Z0-9-]', '-', name)`: every character outside the
class is replaced by a hyphen. -/
def hyphenate (l : List Char) : List Char :=
  l.map (fun c => if isNameChar c then c else '-')

/-- Worker for `re.sub(r'-+', '-', s)`: the flag records whether the
previous emitted character was part of a hyphen run being collapsed. -/
def collapseAux : Bool → List Char → List Char
  | _, [] => []
  | prevHyphen, c :: rest =>
    if c = '-' then
      if prevHyphen then collapseAux true rest
      else '-' :: collapseAux true rest
    else c :: collapseAux false rest

/-- `re.sub(r'-+', '-', s)`: collapse each run of hyphens to a single one. -/
def collapseHyphens (l : List Char) : List Char := collapseAux false l

/-- Left half of `s.strip('-')`. -/
def lstripHyphens (l : List Char) : List Char := l.dropWhile hyP

/-- `s.rstrip('-')`: drop the trailing run of hyphens. -/
def rstripHyphens (l : List Char) : List Char :=
  (l.reverse.dropWhile hyP).reverse

/-- `s.strip('-')`: drop leading and trailing hyphen runs. -/
def stripHyphens (l : List Char) : List Char := rstripHyphens (lstripHyphens l)

/-- `AgentFactory._sanitize_agent_name` on the underlying character list:
replace invalid characters, collapse hyphen runs, strip outer hyphens,
truncate to 63, strip a trailing hyphen reintroduced by truncation, and
fall back to `"agent"` when empty. -/
def sanitizeL (l : List Char) : List Char :=
  let s1 := hyphenate l
  let s2 := collapseHyphens s1
  let s3 := stripHyphens s2
  let s4 := s3.take 63
  let s5 := rstripHyphens s4
  if s5.isEmpty then "agent".data else s5

/-- `AgentFactory._sanitize_agent_name` as a string function. -/
def sanitize (s : String) : String := ⟨sanitizeL s.data⟩

/-- Extracts `agent.versions.latest` honoring the chained truthiness
checks in both the listing and chat paths. -/
def latestOf (a : RemoteAgent) : Option LatestVersion :=
  match a.versions with
  | none => none
  | some vs => vs.latest

/-- Tool-kind tag collected by the listing path: `t.get('type', 'unknown')`
for dict tools and `getattr(t, 'type', 'unknown')` for object tools; a
present-but-`None` tag stays `None`. -/
def toolTag : ToolEntry → Option String
  | .dictTool ty => pyAttr ty (some "unknown")
  | .objTool ty => pyAttr ty (some "unknown")

/-- Model and tools extraction of the listing path, covering the two
definition shapes: the dict branch reads `definition.get('model','') or ''`
and `definition.get('tools', [])`, the object branch reads
`getattr(definition,'model','') or ''` and
`getattr(definition,'tools',[]) or []`. -/
def defModelTools : RemoteDefinition → String × Option (List ToolEntry)
  | .dictShape m t _ => ((pyAttr m (some "")).getD "", pyAttr t (some []))
  | .objShape m t =>
      ((pyAttr m (some "")).getD "", some ((pyAttr t (some [])).getD []))

/-- Per-definition part of the listing path: yields the extracted model,
the `has_tools` flag and the collected `tool_types`, replaying the
truthiness gate `if definition:` and `if tools and len(tools) > 0:`. -/
def processDef (dopt : Option RemoteDefinition) :
    String × Bool × List (Option String) :=
  match dopt with
  | none => ("", false, [])
  | some d =>
    if d.truthy then
      let mt := defModelTools d
      match mt.2 with
      | none => (mt.1, false, [])
      | some ts =>
        if ts.isEmpty then (mt.1, false, [])
        else (mt.1, true, ts.map toolTag)
    else ("", false, [])

/-- Per-agent body of `AgentFactory.list_foundry_agents`: builds the
`FoundryAgent` summary from one raw remote agent. -/
def summarize (a : RemoteAgent) : FoundryAgent :=
  let mht :=
    match latestOf a with
    | none => ("", false, [])
    | some latest => processDef latest.definition
  let description :=
    match latestOf a with
    | none => ""
    | some latest => (pyAttr latest.description (some "")).getD ""
  let created_at :=
    match latestOf a with
    | none => ""
    | some latest => latest.created_at.getD ""
  { id := a.id
    name := pyStrOr a.name "Sin nombre"
    description := description
    model := mht.1
    created_at := created_at
    has_tools := mht.2.1
    tool_types := if mht.2.2.isEmpty then none else some mht.2.2 }

/-- `AgentFactory.list_foundry_agents`: every remote agent is normalized in
enumeration order. -/
def list_foundry_agents (remote : List RemoteAgent) : List FoundryAgent :=
  remote.map summarize

/-- A Python dict built by successive key assignments over a list of
entries: a later entry with the same key overwrites an earlier one. -/
def pyDict (entries : List (String × β)) : String → Option β :=
  entries.foldl (fun m e => fun n => if n = e.1 then some e.2 else m n)
    (fun _ => none)

/-- `connections_map` of `AgentFactory.create_foundry_agent`: maps each
connection name to its `(id, target-url)` pair, where the url is
`getattr(conn, 'target', '') or ''`. -/
def connectionsMap (conns : List Connection) : String → Option (String × String) :=
  pyDict (conns.map (fun c => (c.name, (c.id, (pyAttr c.target (some "")).getD ""))))

/-- The warning line printed when a requested tool name has no matching
connection. -/
def toolWarning (tool_name : String) : String :=
  "Warning: Tool " ++ apos ++ tool_name ++ apos ++ " not found in connections"

/-- One step of the tool-resolution loop in
`AgentFactory.create_foundry_agent`: a resolved name appends an `MCPTool`
descriptor, an unresolved one records a warning. -/
def resolveStep (conns : List Connection)
    (acc : List MCPTool × List String) (tool_name : String) :
    List MCPTool × List String :=
  match connectionsMap conns tool_name with
  | some info =>
    (acc.1 ++ [{ server_label := tool_name
                 server_url := info.2
                 project_connection_id := info.1
                 allowed_tools := []
                 require_approval := "never" }], acc.2)
  | none => (acc.1, acc.2 ++ [toolWarning tool_name])

/-- The tool-resolution loop of `AgentFactory.create_foundry_agent`:
resolves the requested names in order against the connection inventory,
returning the built descriptors and the recorded warnings. -/
def buildToolsW (conns : List Connection) (tool_names : List String) :
    List MCPTool × List String :=
  tool_names.foldl (resolveStep conns) ([], [])

/-- Descriptors submitted by `create_foundry_agent`: the loop runs only
when `tool_names` is truthy (`if tool_names:`), else `tools` stays `[]`. -/
def submittedTools (conns : List Connection)
    (tool_names : Option (List String)) : List MCPTool :=
  match tool_names with
  | none => []
  | some ns => if ns.isEmpty then [] else (buildToolsW conns ns).1

/-- The `PromptAgentDefinition` submitted by `create_foundry_agent`:
`tools=tools if tools else None` turns an empty descriptor list into
absence. -/
def submittedDefinition (model instructions : String)
    (conns : List Connection) (tool_names : Option (List String)) :
    PromptAgentDefinition :=
  let ts := submittedTools conns tool_names
  { model := model
    instructions := instructions
    tools := if ts.isEmpty then none else some ts }

/-- The remote create call's echoed response: an id and an optional name
(`None` when the service returns no name). -/
structure CreateResponse where
  id : String
  name : Option String
deriving DecidableEq

/-- `AgentFactory.create_foundry_agent`: sanitizes the name, builds and
submits the definition through the remote create call (modelled by the
`remoteCreate` parameter), and wraps the response in a `FoundryAgent`
using the dataclass defaults for `has_tools` and `tool_types`. -/
def create_foundry_agent (name instructions model : String)
    (tool_names : Option (List String)) (conns : List Connection)
    (remoteCreate : String → PromptAgentDefinition → CreateResponse) :
    FoundryAgent :=
  let sanitized_name := sanitize name
  let definition := submittedDefinition model instructions conns tool_names
  let agent := remoteCreate sanitized_name definition
  { id := agent.id
    name := pyStrOr agent.name sanitized_name
    description := ""
    model := model
    created_at := "" }

/-- The dict-only mcp probe of one tool entry in
`AgentFactory.chat_with_foundry_agent`:
`t.get('type') == 'mcp' for t in tools if isinstance(t, dict)` — object
tool entries are filtered out of the generator. -/
def toolIsMcpChat : ToolEntry → Bool
  | .dictTool ty => pyAttr ty none = some "mcp"
  | .objTool _ => false

/-- `has_mcp_tools` computation of `AgentFactory.chat_with_foundry_agent`:
the probe runs only when the latest definition is truthy **and** a keyed
mapping (`isinstance(definition, dict)`), and only over its dict-shaped
tool entries. -/
def hasMcpTools (a : RemoteAgent) : Bool :=
  match latestOf a with
  | none => false
  | some latest =>
    match latest.definition with
    | none => false
    | some d =>
      match d with
      | .dictShape _ t _ =>
        d.truthy &&
          (match pyAttr t (some []) with
           | none => false
           | some ts => !ts.isEmpty && ts.any toolIsMcpChat)
      | .objShape _ _ => false

/-- The fixed explanatory fragment yielded on a "500" failure against an
agent whose `has_mcp_tools` flag is set. -/
def mcpKnownIssueMessage : String :=
  "⚠️ Error del servidor (500): Este agente tiene MCP tools configuradas. Actualmente hay un problema conocido con la API de Azure AI Foundry al chatear con agentes que tienen MCP tools a través del SDK. Por favor, prueba con este agente directamente en el portal de Azure AI Foundry."

/-- The raw-error fragment yielded on any other failure. -/
def rawChatError (error_msg : String) : String :=
  "Error al chatear con el agente: " ++ error_msg

/-- The `except` branch of `chat_with_foundry_agent`: selects the fixed
explanatory fragment exactly when the error text contains "500" and the
`has_mcp_tools` flag is set. -/
def classifyChatError (error_msg : String) (has_mcp_tools : Bool) : String :=
  if strContains "500" error_msg && has_mcp_tools then mcpKnownIssueMessage
  else rawChatError error_msg

/-- Fragments produced by `chat_with_foundry_agent` when the remote
completion call fails with the given error text: exactly one classified
fragment. -/
def chatFailureFragments (a : RemoteAgent) (error_msg : String) :
    List String :=
  [classifyChatError error_msg (hasMcpTools a)]

/-- Streamed chunk filter of `AgentFactory.chat_with_agent`:
`if chunk.text: yield chunk.text` keeps only truthy texts. -/
def chunkFilter (t : Option String) : Option String :=
  match t with
  | none => none
  | some s => if s = "" then none else some s

/-- `AgentFactory.chat_with_agent`: looks up the local `AgentConfig`; when
absent it yields a single not-found fragment and stops without touching
the remote service; otherwise it re-emits the remote stream's truthy
chunk texts in order (the stream is modelled by the `stream` parameter). -/
def chat_with_agent (agents : List (String × AgentConfig)) (agent_id : String)
    (stream : AgentConfig → List (Option String)) : List String :=
  match pyDict agents agent_id with
  | none => ["Error: Agente " ++ apos ++ agent_id ++ apos ++ " no encontrado."]
  | some config => (stream config).filterMap chunkFilter

/-- Modelled from the spec: the shape-independent reading of "the target
agent was determined to carry a tool of kind mcp" — the latest version's
definition, in either shape, holds a tool entry whose kind tag is "mcp". -/
def specCarriesMcpTool (a : RemoteAgent) : Bool :=
  match latestOf a with
  | none => false
  | some latest =>
    match latest.definition with
    | none => false
    | some d =>
      match (defModelTools d).2 with
      | none => false
      | some ts => ts.any (fun te => toolTag te = some "mcp")

/-- Restriction under which the chat path's dict-only mcp probe sees every
tool: the latest definition, if any, is a keyed mapping whose tool entries
are themselves keyed mappings. -/
def dictShapedAgent (a : RemoteAgent) : Bool :=
  match latestOf a with
  | none => true
  | some latest =>
    match latest.definition with
    | none => true
    | some d =>
      match d with
      | .objShape _ _ => false
      | .dictShape _ t _ =>
        match pyAttr t (some []) with
        | none => true
        | some ts =>
          ts.all (fun te => match te with
            | .dictTool _ => true
            | .objTool _ => false)

/-- The `has_tools`/`tool_types` coherence invariant on a summary. -/
def toolsConsistent (f : FoundryAgent) : Prop :=
  (f.has_tools = true ↔ ∃ l, f.tool_types = some l ∧ l ≠ []) ∧
  (f.has_tools = false → f.tool_types = none)

/-- Absence of two consecutive hyphens, as a relation between adjacent
characters. -/
def noTwoHyphens (a b : Char) : Prop := ¬(a = '-' ∧ b = '-')

instance noTwoHyphensDec : DecidableRel noTwoHyphens :=
  fun a b => decidable_of_iff (¬(a = '-' ∧ b = '-')) Iff.rfl

/-- The sanitizer output grammar, read per the spec's parenthetical: first
and last characters alphanumeric, every character in `[A-Za-z0-9-]`, and
no two consecutive hyphens. -/
def matchesGrammar (l : List Char) : Prop :=
  (∃ c, l.head? = some c ∧ isAlnumB c = true) ∧
  (∃ c, l.getLast? = some c ∧ isAlnumB c = true) ∧
  l.all isNameChar = true ∧
  List.Chain' noTwoHyphens l

/-- The document `s` contains the given fragments in order, each in a
separate, successively later position. -/
def ContainsInOrder : String → List String → Prop
  | _, [] => True
  | s, p :: ps => ∃ a b, s = a ++ (p ++ b) ∧ ContainsInOrder b ps

/-- Concrete agent whose latest definition arrives as an attribute-bearing
object carrying an mcp-tagged tool entry. -/
def objMcpAgent : RemoteAgent :=
  ⟨"agent-1", some "demo",
    some ⟨some ⟨some (.objShape none
      (some (some [ToolEntry.dictTool (some (some "mcp"))]))), none, none⟩⟩⟩

/-- Concrete agent whose latest definition is a keyed mapping carrying an
mcp-tagged dict tool entry. -/
def dictMcpAgent : RemoteAgent :=
  ⟨"agent-2", some "demo2",
    some ⟨some ⟨some (.dictShape none
      (some (some [ToolEntry.dictTool (some (some "mcp"))])) false), none, none⟩⟩⟩

/-! Supporting lemmas for the sanitizer pipeline. -/

lemma hyP_true (c : Char) : hyP c = true ↔ c = '-' := by simp [hyP]

lemma hyP_false (c : Char) : hyP c = false ↔ c ≠ '-' := by simp [hyP]

lemma all_hyphenate (l : List Char) : (hyphenate l).all isNameChar = true := by
  simp only [hyphenate, List.all_map, List.all_eq_true]
  intro c _
  by_cases h : isNameChar c = true
  · simp [h]
  · simp only [Function.comp]
    rw [if_neg (by simpa using h)]
    decide

lemma collapse_all (p : Char → Bool) (hp : p '-' = true) (l : List Char) :
    ∀ b, l.all p = true → (collapseAux b l).all p = true := by
  induction l with
  | nil => intro b _; rfl
  | cons c rest ih =>
    intro b h
    rw [List.all_cons, Bool.and_eq_true] at h
    unfold collapseAux
    by_cases hc : c = '-'
    · rw [if_pos hc]
      cases b with
      | true => exact ih true h.2
      | false =>
        simp only [Bool.false_eq_true, if_false]
        rw [List.all_cons, Bool.and_eq_true]
        exact ⟨hp, ih true h.2⟩
    · rw [if_neg hc, List.all_cons, Bool.and_eq_true]
      exact ⟨h.1, ih false h.2⟩

lemma collapse_head_true (l : List Char) :
    ∀ c, (collapseAux true l).head? = some c → c ≠ '-' := by
  induction l with
  | nil => intro c h; simp [collapseAux] at h
  | cons x rest ih =>
    intro c h
    unfold collapseAux at h
    by_cases hx : x = '-'
    · rw [if_pos hx] at h
      simp only [if_pos rfl] at h
      exact ih c h
    · rw [if_neg hx] at h
      have : x = c := by simpa using h
      rw [← this]
      exact hx

lemma collapse_chain (l : List Char) :
    ∀ b, List.Chain' noTwoHyphens (collapseAux b l) := by
  induction l with
  | nil => intro b; simp [collapseAux]
  | cons x rest ih =>
    intro b
    unfold collapseAux
    by_cases hx : x = '-'
    · rw [if_pos hx]
      cases b with
      | true => exact ih true
      | false =>
        simp only [Bool.false_eq_true, if_false]
        rw [List.chain'_cons']
        refine ⟨?_, ih true⟩
        intro y hy
        have hy' : y ≠ '-' := collapse_head_true rest y (by simpa using hy)
        exact fun hcon => hy' hcon.2
    · rw [if_neg hx]
      rw [List.chain'_cons']
      refine ⟨?_, ih false⟩
      intro y _
      exact fun hcon => hx hcon.1

lemma collapse_id (l : List Char) :
    ∀ b, List.Chain' noTwoHyphens l →
      (b = true → ∀ c, l.head? = some c → c ≠ '-') →
      collapseAux b l = l := by
  induction l with
  | nil => intro b _ _; rfl
  | cons x rest ih =>
    intro b hch hhd
    rw [List.chain'_cons'] at hch
    unfold collapseAux
    by_cases hx : x = '-'
    · cases b with
      | true => exact absurd hx (hhd rfl x (by simp))
      | false =>
        rw [if_pos hx]
        simp only [Bool.false_eq_true, if_false]
        rw [← hx]
        congr 1
        refine ih true hch.2 ?_
        intro _ c hc
        have := hch.1 c (by simpa using hc)
        rw [hx] at this
        exact fun hcon => this ⟨rfl, hcon⟩
    · rw [if_neg hx]
      congr 1
      exact ih false hch.2 (fun hb => by simp at hb)

lemma head_of_dropWhile (p : Char → Bool) (l : List Char) :
    ∀ c, (l.dropWhile p).head? = some c → p c = false := by
  induction l with
  | nil => intro c h; simp at h
  | cons x rest ih =>
    intro c h
    rw [List.dropWhile_cons] at h
    by_cases hp : p x = true
    · rw [if_pos hp] at h
      exact ih c h
    · rw [if_neg hp] at h
      have : x = c := by simpa using h
      rw [← this]
      simpa using hp

lemma dropWhile_eq_self (p : Char → Bool) (l : List Char)
    (h : ∀ c, l.head? = some c → p c = false) : l.dropWhile p = l := by
  cases l with
  | nil => rfl
  | cons x rest =>
    rw [List.dropWhile_cons, if_neg]
    simp [h x rfl]

lemma rstrip_decomp (l : List Char) :
    rstripHyphens l ++ (l.reverse.takeWhile hyP).reverse = l := by
  unfold rstripHyphens
  calc (l.reverse.dropWhile hyP).reverse ++ (l.reverse.takeWhile hyP).reverse
      = (l.reverse.takeWhile hyP ++ l.reverse.dropWhile hyP).reverse := by
        rw [List.reverse_append]
    _ = l.reverse.reverse := by rw [List.takeWhile_append_dropWhile]
    _ = l := List.reverse_reverse l

lemma pre_head (l' t l : List Char) (h : l' ++ t = l) :
    ∀ c, l'.head? = some c → l.head? = some c := by
  intro c hc
  cases l' with
  | nil => simp at hc
  | cons x r =>
    rw [← h]
    simpa using hc

lemma pre_all (p : Char → Bool) (l' t l : List Char) (h : l' ++ t = l)
    (hall : l.all p = true) : l'.all p = true := by
  rw [← h, List.all_append, Bool.and_eq_true] at hall
  exact hall.1

lemma suf_all (p : Char → Bool) (t l' l : List Char) (h : t ++ l' = l)
    (hall : l.all p = true) : l'.all p = true := by
  rw [← h, List.all_append, Bool.and_eq_true] at hall
  exact hall.2

lemma pre_chain (l' t l : List Char) (h : l' ++ t = l)
    (hch : List.Chain' noTwoHyphens l) : List.Chain' noTwoHyphens l' := by
  rw [← h] at hch
  exact hch.left_of_append

lemma suf_chain (t l' l : List Char) (h : t ++ l' = l)
    (hch : List.Chain' noTwoHyphens l) : List.Chain' noTwoHyphens l' := by
  rw [← h] at hch
  exact hch.right_of_append

lemma all_rev (p : Char → Bool) (l : List Char) (h : l.all p = true) :
    l.reverse.all p = true := by
  rw [List.all_reverse]
  exact h

lemma rstrip_all (p : Char → Bool) (l : List Char) (h : l.all p = true) :
    (rstripHyphens l).all p = true := by
  unfold rstripHyphens
  refine all_rev p _ ?_
  exact suf_all p (l.reverse.takeWhile hyP) _ l.reverse
    (List.takeWhile_append_dropWhile hyP l.reverse) (all_rev p l h)

lemma chain_rev (l : List Char) (h : List.Chain' noTwoHyphens l) :
    List.Chain' noTwoHyphens l.reverse := by
  rw [List.chain'_reverse]
  exact h.imp (fun a b hab => fun hcon => hab ⟨hcon.2, hcon.1⟩)

lemma rstrip_chain (l : List Char) (h : List.Chain' noTwoHyphens l) :
    List.Chain' noTwoHyphens (rstripHyphens l) := by
  unfold rstripHyphens
  refine chain_rev _ ?_
  exact suf_chain (l.reverse.takeWhile hyP) _ l.reverse
    (List.takeWhile_append_dropWhile hyP l.reverse) (chain_rev l h)

lemma rstrip_getLast (l : List Char) :
    ∀ c, (rstripHyphens l).getLast? = some c → c ≠ '-' := by
  intro c hc
  rw [← List.head?_reverse] at hc
  unfold rstripHyphens at hc
  rw [List.reverse_reverse] at hc
  exact (hyP_false c).mp (head_of_dropWhile hyP l.reverse c hc)

lemma rstrip_id (l : List Char) (h : ∀ c, l.getLast? = some c → c ≠ '-') :
    rstripHyphens l = l := by
  unfold rstripHyphens
  have hd : l.reverse.dropWhile hyP = l.reverse := by
    refine dropWhile_eq_self hyP l.reverse ?_
    intro c hc
    rw [List.head?_reverse] at hc
    exact (hyP_false c).mpr (h c hc)
  rw [hd, List.reverse_reverse]

lemma rstrip_head (l : List Char) :
    ∀ c, (rstripHyphens l).head? = some c → l.head? = some c :=
  pre_head _ _ _ (rstrip_decomp l)

lemma hyphenate_id : ∀ (m : List Char), m.all isNameChar = true → hyphenate m = m := by
  intro m
  induction m with
  | nil => intro _; rfl
  | cons c r ih =>
    intro h
    rw [List.all_cons, Bool.and_eq_true] at h
    unfold hyphenate at ih ⊢
    simp only [List.map_cons]
    rw [if_pos h.1, ih h.2]

lemma isEmpty_false_of_ne (m : List Char) (h : m ≠ []) : m.isEmpty = false := by
  cases m with
  | nil => exact absurd rfl h
  | cons x r => rfl

lemma sanitizeL_rep (l : List Char) :
    sanitizeL l =
      if (rstripHyphens ((stripHyphens (collapseHyphens (hyphenate l))).take 63)).isEmpty
      then "agent".data
      else rstripHyphens ((stripHyphens (collapseHyphens (hyphenate l))).take 63) := rfl

lemma sanitizeL_props (l : List Char) :
    sanitizeL l ≠ [] ∧
    (sanitizeL l).all isNameChar = true ∧
    List.Chain' noTwoHyphens (sanitizeL l) ∧
    (∀ c, (sanitizeL l).head? = some c → c ≠ '-') ∧
    (∀ c, (sanitizeL l).getLast? = some c → c ≠ '-') ∧
    (sanitizeL l).length ≤ 63 := by
  have a2 : (collapseHyphens (hyphenate l)).all isNameChar = true :=
    collapse_all isNameChar (by decide) (hyphenate l) false (all_hyphenate l)
  have a2d : (lstripHyphens (collapseHyphens (hyphenate l))).all isNameChar = true :=
    suf_all isNameChar ((collapseHyphens (hyphenate l)).takeWhile hyP) _ _
      (List.takeWhile_append_dropWhile hyP (collapseHyphens (hyphenate l))) a2
  have a3 : (stripHyphens (collapseHyphens (hyphenate l))).all isNameChar = true :=
    rstrip_all isNameChar _ a2d
  have a4 : ((stripHyphens (collapseHyphens (hyphenate l))).take 63).all isNameChar = true :=
    pre_all isNameChar _ ((stripHyphens (collapseHyphens (hyphenate l))).drop 63) _
      (List.take_append_drop 63 (stripHyphens (collapseHyphens (hyphenate l)))) a3
  have a5 : (rstripHyphens ((stripHyphens (collapseHyphens (hyphenate l))).take 63)).all isNameChar = true :=
    rstrip_all isNameChar _ a4
  have c2 : List.Chain' noTwoHyphens (collapseHyphens (hyphenate l)) :=
    collapse_chain (hyphenate l) false
  have c2d : List.Chain' noTwoHyphens (lstripHyphens (collapseHyphens (hyphenate l))) :=
    suf_chain ((collapseHyphens (hyphenate l)).takeWhile hyP) _ _
      (List.takeWhile_append_dropWhile hyP (collapseHyphens (hyphenate l))) c2
  have c3 : List.Chain' noTwoHyphens (stripHyphens (collapseHyphens (hyphenate l))) :=
    rstrip_chain _ c2d
  have c4 : List.Chain' noTwoHyphens ((stripHyphens (collapseHyphens (hyphenate l))).take 63) :=
    pre_chain _ ((stripHyphens (collapseHyphens (hyphenate l))).drop 63) _
      (List.take_append_drop 63 (stripHyphens (collapseHyphens (hyphenate l)))) c3
  have c5 : List.Chain' noTwoHyphens (rstripHyphens ((stripHyphens (collapseHyphens (hyphenate l))).take 63)) :=
    rstrip_chain _ c4
  have h3 : ∀ c, (stripHyphens (collapseHyphens (hyphenate l))).head? = some c → c ≠ '-' := by
    intro c hc
    have hc' : (lstripHyphens (collapseHyphens (hyphenate l))).head? = some c :=
      rstrip_head _ c hc
    exact (hyP_false c).mp (head_of_dropWhile hyP (collapseHyphens (hyphenate l)) c hc')
  have h4 : ∀ c, ((stripHyphens (collapseHyphens (hyphenate l))).take 63).head? = some c → c ≠ '-' := by
    intro c hc
    rw [List.head?_take, if_neg (by decide)] at hc
    exact h3 c hc
  have h5 : ∀ c, (rstripHyphens ((stripHyphens (collapseHyphens (hyphenate l))).take 63)).head? = some c → c ≠ '-' :=
    fun c hc => h4 c (rstrip_head _ c hc)
  have len5 : (rstripHyphens ((stripHyphens (collapseHyphens (hyphenate l))).take 63)).length ≤ 63 := by
    have hd := rstrip_decomp ((stripHyphens (collapseHyphens (hyphenate l))).take 63)
    have hsum : (rstripHyphens ((stripHyphens (collapseHyphens (hyphenate l))).take 63)).length
        + (((stripHyphens (collapseHyphens (hyphenate l))).take 63).reverse.takeWhile hyP).reverse.length
        = ((stripHyphens (collapseHyphens (hyphenate l))).take 63).length := by
      rw [← List.length_append, hd]
    have h63 : ((stripHyphens (collapseHyphens (hyphenate l))).take 63).length ≤ 63 := by
      rw [List.length_take]
      exact Nat.min_le_left 63 _
    omega
  rw [sanitizeL_rep]
  by_cases hE : (rstripHyphens ((stripHyphens (collapseHyphens (hyphenate l))).take 63)).isEmpty
  · rw [if_pos hE]
    have hh : ("agent".data).head? = some 'a' := rfl
    have hl : ("agent".data).getLast? = some 't' := rfl
    have hchA : List.Chain' noTwoHyphens "agent".data := by
      rw [show ("agent".data) = ['a', 'g', 'e', 'n', 't'] from rfl]
      rw [List.chain'_cons, List.chain'_cons, List.chain'_cons, List.chain'_cons]
      refine ⟨by decide, by decide, by decide, by decide, ?_⟩
      simp
    refine ⟨by decide, by decide, hchA, ?_, ?_, by decide⟩
    · intro c hc
      rw [hh] at hc
      have hac : 'a' = c := Option.some.inj hc
      rw [← hac]
      decide
    · intro c hc
      rw [hl] at hc
      have htc : 't' = c := Option.some.inj hc
      rw [← htc]
      decide
  · rw [if_neg hE]
    have hne : rstripHyphens ((stripHyphens (collapseHyphens (hyphenate l))).take 63) ≠ [] := by
      intro h0
      rw [h0] at hE
      exact hE rfl
    exact ⟨hne, a5, c5, h5, rstrip_getLast _, len5⟩

lemma sanitizeL_fix (m : List Char) (hne : m ≠ [])
    (hall : m.all isNameChar = true) (hch : List.Chain' noTwoHyphens m)
    (hhd : ∀ c, m.head? = some c → c ≠ '-')
    (hlast : ∀ c, m.getLast? = some c → c ≠ '-')
    (hlen : m.length ≤ 63) : sanitizeL m = m := by
  have e1 : hyphenate m = m := hyphenate_id m hall
  have e2 : collapseHyphens m = m :=
    collapse_id m false hch (fun hb => by simp at hb)
  have e3l : lstripHyphens m = m :=
    dropWhile_eq_self hyP m (fun c hc => (hyP_false c).mpr (hhd c hc))
  have e3r : rstripHyphens m = m := rstrip_id m hlast
  have e3 : stripHyphens m = m := by
    unfold stripHyphens
    rw [e3l, e3r]
  have e4 : m.take 63 = m := List.take_of_length_le hlen
  rw [sanitizeL_rep, e1, e2, e3, e4, e3r, isEmpty_false_of_ne m hne]
  simp

lemma alnum_of_nameChar (c : Char) (h1 : isNameChar c = true) (h2 : c ≠ '-') :
    isAlnumB c = true := by
  unfold isNameChar at h1
  rcases (Bool.or_eq_true _ _).mp h1 with h | h
  · exact h
  · exact absurd (by simpa using h) h2


/-! Supporting lemmas for normalization, resolution and classification. -/

lemma processDef_flag_iff (dopt : Option RemoteDefinition) :
    ((processDef dopt).2.1 = true ↔ (processDef dopt).2.2 ≠ []) := by
  unfold processDef
  cases dopt with
  | none => simp
  | some d =>
    by_cases hT : d.truthy
    · simp only [hT, if_true]
      cases h2 : (defModelTools d).2 with
      | none => simp
      | some ts =>
        by_cases hE : ts.isEmpty
        · simp [hE]
        · simp only [hE, if_false]
          simp only [ne_eq, List.map_eq_nil_iff]
          simp [List.isEmpty_iff] at hE
          simp [hE]
    · simp [hT]

lemma summarize_fields (a : RemoteAgent) :
    (summarize a).has_tools = (match latestOf a with
      | none => ("", false, ([] : List (Option String)))
      | some latest => processDef latest.definition).2.1 ∧
    (summarize a).tool_types = (if (match latestOf a with
      | none => ("", false, ([] : List (Option String)))
      | some latest => processDef latest.definition).2.2.isEmpty then none
      else some (match latestOf a with
      | none => ("", false, ([] : List (Option String)))
      | some latest => processDef latest.definition).2.2) := ⟨rfl, rfl⟩

/-- C1: for every `RemoteAgentSummary` produced by the listing path (and by
the create path), `has_tools` is true iff `tool_types` is a non-empty
sequence, and whenever `has_tools` is false, `tool_types` is absent. -/
theorem tools_flag_iff_tool_types_nonempty (a : RemoteAgent)
    (name instructions model : String) (tool_names : Option (List String))
    (conns : List Connection)
    (remoteCreate : String → PromptAgentDefinition → CreateResponse) :
    toolsConsistent (summarize a) ∧
    toolsConsistent
      (create_foundry_agent name instructions model tool_names conns remoteCreate) := by
  constructor
  · obtain ⟨h1, h2⟩ := summarize_fields a
    cases hL : latestOf a with
    | none =>
      rw [hL] at h1 h2
      simp at h1 h2
      constructor
      · rw [h1, h2]; simp
      · intro _; rw [h2]
    | some latest =>
      rw [hL] at h1 h2
      have hiff := processDef_flag_iff latest.definition
      by_cases hE : (processDef latest.definition).2.2.isEmpty
      · have hnil : (processDef latest.definition).2.2 = [] := by
          simpa [List.isEmpty_iff] using hE
        have hfalse : (processDef latest.definition).2.1 = false := by
          rcases Bool.eq_false_or_eq_true (processDef latest.definition).2.1 with h | h
          · exact absurd hnil (hiff.mp h)
          · exact h
        constructor
        · rw [h1, h2, hfalse]
          simp [hE]
        · intro _
          rw [h2]; simp [hE]
      · have hne : (processDef latest.definition).2.2 ≠ [] := by
          simpa [List.isEmpty_iff] using hE
        have htrue : (processDef latest.definition).2.1 = true := hiff.mpr hne
        constructor
        · rw [h1, h2, htrue]
          simp [hE]
          exact hne
        · intro hcontra
          rw [h1, htrue] at hcontra
          exact absurd hcontra (by simp)
  · constructor
    · constructor
      · intro h; exact absurd h (by simp [create_foundry_agent])
      · rintro ⟨l, hl, -⟩
        exact absurd hl (by simp [create_foundry_agent])
    · intro _; rfl

/-- Witness for C1: a concrete versionless agent summarizes with absent
tool types. -/
theorem tools_flag_iff_tool_types_nonempty_witness :
    (summarize ⟨"agent-0", none, none⟩).tool_types = none :=
  (tools_flag_iff_tool_types_nonempty ⟨"agent-0", none, none⟩ "n" "i" "m" none []
    (fun _ _ => ⟨"id", none⟩)).1.2 rfl

lemma processDef_shape (m : Option (Option String))
    (t : Option (Option (List ToolEntry))) (other : Bool) :
    processDef (some (RemoteDefinition.dictShape m t other)) =
    processDef (some (RemoteDefinition.objShape m t)) := by
  rcases t with _ | (_ | ts) <;> rcases m with _ | m' <;> cases other <;>
    simp [processDef, RemoteDefinition.truthy, defModelTools, pyAttr]

/-- C3: the listing path treats a keyed-mapping definition and an
attribute-bearing definition carrying the same model and tool entries
identically: the produced summaries are equal. -/
theorem list_agents_handles_both_definition_shapes_identically
    (idv : String) (namev : Option String) (descv : Option (Option String))
    (cav : Option String) (m : Option (Option String))
    (t : Option (Option (List ToolEntry))) (other : Bool) :
    summarize ⟨idv, namev, some ⟨some ⟨some (.dictShape m t other), descv, cav⟩⟩⟩ =
    summarize ⟨idv, namev, some ⟨some ⟨some (.objShape m t), descv, cav⟩⟩⟩ := by
  simp only [summarize, latestOf, processDef_shape]

lemma buildToolsW_aux (conns : List Connection) (names : List String)
    (acc : List MCPTool × List String) :
    names.foldl (resolveStep conns) acc =
      (acc.1 ++ names.filterMap (fun n => (connectionsMap conns n).map
          (fun info => { server_label := n, server_url := info.2,
                         project_connection_id := info.1, allowed_tools := [],
                         require_approval := "never" })),
       acc.2 ++ (names.filter (fun n => (connectionsMap conns n).isNone)).map toolWarning) := by
  induction names generalizing acc with
  | nil => simp
  | cons n rest ih =>
    simp only [List.foldl_cons]
    rw [ih]
    cases h : connectionsMap conns n <;>
      simp [resolveStep, h, List.filterMap_cons, List.filter_cons]

/-- C4: tool resolution produces exactly one descriptor per resolved name in
request order — each carrying the name as server label, the resolved target
url, the resolved connection id, an empty allowed-operations restriction and
approval policy "never" — and records one warning per unresolved name,
never failing. -/
theorem tool_resolution_skips_unknown_names (conns : List Connection)
    (names : List String) :
    (buildToolsW conns names).1 =
      names.filterMap (fun n => (connectionsMap conns n).map
        (fun info => { server_label := n, server_url := info.2,
                       project_connection_id := info.1, allowed_tools := [],
                       require_approval := "never" })) ∧
    (buildToolsW conns names).2 =
      (names.filter (fun n => (connectionsMap conns n).isNone)).map toolWarning := by
  unfold buildToolsW
  rw [buildToolsW_aux]
  simp

/-- C8: chatting with an agent id absent from the local registry yields
exactly one error fragment, terminates, and the output is independent of
the remote stream (the remote service is never contacted). -/
theorem chat_unknown_local_agent_single_fragment
    (agents : List (String × AgentConfig)) (agent_id : String)
    (stream stream2 : AgentConfig → List (Option String))
    (h : pyDict agents agent_id = none) :
    chat_with_agent agents agent_id stream =
      ["Error: Agente " ++ apos ++ agent_id ++ apos ++ " no encontrado."] ∧
    (chat_with_agent agents agent_id stream).length = 1 ∧
    chat_with_agent agents agent_id stream =
      chat_with_agent agents agent_id stream2 := by
  unfold chat_with_agent
  rw [h]
  exact ⟨rfl, rfl, rfl⟩

/-- Witness for C8 on the empty registry. -/
theorem chat_unknown_local_agent_single_fragment_witness :
    chat_with_agent [] "missing" (fun _ => [some "hola"]) =
      ["Error: Agente " ++ apos ++ "missing" ++ apos ++ " no encontrado."] :=
  (chat_unknown_local_agent_single_fragment [] "missing"
    (fun _ => [some "hola"]) (fun _ => []) rfl).1

/-- C9: when the requested tool-name list is absent or resolves to zero
descriptors, the submitted definition carries `tools = none`, never an
empty collection; when at least one name resolves, it carries exactly the
resolved descriptors. -/
theorem submitted_definition_tools_never_empty
    (model instructions : String) (conns : List Connection)
    (tool_names : Option (List String)) :
    (tool_names = none →
      (submittedDefinition model instructions conns tool_names).tools = none) ∧
    (submittedTools conns tool_names = [] →
      (submittedDefinition model instructions conns tool_names).tools = none) ∧
    (submittedTools conns tool_names ≠ [] →
      (submittedDefinition model instructions conns tool_names).tools =
        some (submittedTools conns tool_names)) ∧
    (∀ l, (submittedDefinition model instructions conns tool_names).tools = some l →
      l ≠ []) := by
  have hts : (submittedDefinition model instructions conns tool_names).tools
      = if (submittedTools conns tool_names).isEmpty then none
        else some (submittedTools conns tool_names) := rfl
  by_cases h : (submittedTools conns tool_names).isEmpty
  · refine ⟨fun _ => ?_, fun _ => ?_, fun hne => ?_, fun l hl => ?_⟩
    · rw [hts, if_pos h]
    · rw [hts, if_pos h]
    · exact absurd (by simpa [List.isEmpty_iff] using h) hne
    · rw [hts, if_pos h] at hl
      exact absurd hl (by simp)
  · have hne : submittedTools conns tool_names ≠ [] := by
      simpa [List.isEmpty_iff] using h
    refine ⟨fun h0 => ?_, fun h0 => absurd h0 hne, fun _ => ?_, fun l hl => ?_⟩
    · subst h0
      exact absurd rfl hne
    · rw [hts, if_neg h]
    · rw [hts, if_neg h] at hl
      have : submittedTools conns tool_names = l := by
        injection hl
      rw [← this]
      exact hne

/-- Witness for C9: a requested name with no matching connection yields an
absent tool list. -/
theorem submitted_definition_tools_never_empty_witness :
    (submittedDefinition "gpt-4o" "inst" [] (some ["ghost"])).tools = none :=
  (submitted_definition_tools_never_empty "gpt-4o" "inst" [] (some ["ghost"])).2.1
    (by decide)

/-- C10: every summary returned by the create path has `has_tools = false`
and `tool_types = none` (the dataclass defaults) regardless of attached
tool descriptors, and its name falls back to the sanitized request name
when the remote response carries no name. -/
theorem created_summary_has_default_tool_fields
    (name instructions model : String) (tool_names : Option (List String))
    (conns : List Connection)
    (remoteCreate : String → PromptAgentDefinition → CreateResponse) :
    (create_foundry_agent name instructions model tool_names conns remoteCreate).has_tools = false ∧
    (create_foundry_agent name instructions model tool_names conns remoteCreate).tool_types = none ∧
    ((remoteCreate (sanitize name)
        (submittedDefinition model instructions conns tool_names)).name = none →
      (create_foundry_agent name instructions model tool_names conns remoteCreate).name =
        sanitize name) := by
  refine ⟨rfl, rfl, ?_⟩
  intro h
  unfold create_foundry_agent
  simp only [h, pyStrOr]

/-- Witness for C10 with a remote response carrying no name. -/
theorem created_summary_has_default_tool_fields_witness :
    (create_foundry_agent "My Agent" "inst" "gpt-4o" (some ["t"]) []
      (fun _ _ => ⟨"id-1", none⟩)).name = sanitize "My Agent" :=
  (created_summary_has_default_tool_fields "My Agent" "inst" "gpt-4o" (some ["t"]) []
    (fun _ _ => ⟨"id-1", none⟩)).2.2 rfl

lemma any_mcp_of_dict_tools (ts : List ToolEntry)
    (h : ts.all (fun te => match te with
      | .dictTool _ => true
      | .objTool _ => false) = true) :
    ts.any toolIsMcpChat = ts.any (fun te => toolTag te = some "mcp") := by
  induction ts with
  | nil => rfl
  | cons te rest ih =>
    simp only [List.all_cons, Bool.and_eq_true] at h
    obtain ⟨h1, h2⟩ := h
    simp only [List.any_cons, ih h2]
    congr 1
    cases te with
    | dictTool ty =>
      rcases ty with _ | (_ | s) <;> simp [toolIsMcpChat, toolTag, pyAttr]
    | objTool ty => exact absurd h1 (by simp)

lemma hasMcpTools_eq_spec_of_dict (a : RemoteAgent)
    (h : dictShapedAgent a = true) :
    hasMcpTools a = specCarriesMcpTool a := by
  unfold hasMcpTools specCarriesMcpTool
  unfold dictShapedAgent at h
  cases hL : latestOf a with
  | none => simp only [hL]
  | some latest =>
    simp only [hL] at h ⊢
    cases hd : latest.definition with
    | none => simp only [hd]
    | some d =>
      simp only [hd] at h ⊢
      cases d with
      | objShape m t => exact absurd h (by simp)
      | dictShape m t other =>
        rcases t with _ | (_ | ts)
        · simp [pyAttr, defModelTools, RemoteDefinition.truthy]
        · simp [pyAttr, defModelTools]
        · simp only [pyAttr, Option.getD, defModelTools] at h ⊢
          by_cases hE : ts.isEmpty
          · have : ts = [] := by simpa [List.isEmpty_iff] using hE
            subst this
            simp [RemoteDefinition.truthy]
          · simp only [RemoteDefinition.truthy, Option.isSome, Bool.or_true, Bool.true_or,
              Bool.true_and, hE, Bool.not_false]
            rw [any_mcp_of_dict_tools ts h]

/-- C2 counterexample: an agent whose definition arrives as an
attribute-bearing object carrying an mcp tool gets the raw error fragment
on a 500 failure, not the fixed explanatory fragment — the classification
is not shape independent. -/
theorem mcp_500_classification_is_shape_dependent :
    specCarriesMcpTool objMcpAgent = true ∧
    strContains "500" "Error code: 500" = true ∧
    chatFailureFragments objMcpAgent "Error code: 500" ≠ [mcpKnownIssueMessage] ∧
    chatFailureFragments objMcpAgent "Error code: 500" =
      [rawChatError "Error code: 500"] := by
  refine ⟨by decide, by decide, ?_, rfl⟩
  decide

/-- C2 (amended): for failures of the remote completion call against an
agent whose latest-version definition is a keyed mapping (with keyed-mapping
tool entries), a failure text containing "500" against an mcp-carrying agent
yields exactly the one fixed explanatory fragment, and any other failure
yields exactly one fragment with the raw error text. -/
theorem chat_failure_classification_on_mapping_definitions
    (a : RemoteAgent) (msg : String) (h : dictShapedAgent a = true) :
    (strContains "500" msg = true ∧ specCarriesMcpTool a = true →
      chatFailureFragments a msg = [mcpKnownIssueMessage]) ∧
    (¬(strContains "500" msg = true ∧ specCarriesMcpTool a = true) →
      chatFailureFragments a msg = [rawChatError msg]) := by
  unfold chatFailureFragments classifyChatError
  rw [hasMcpTools_eq_spec_of_dict a h]
  constructor
  · rintro ⟨h5, hm⟩
    rw [h5, hm]
    simp
  · intro hn
    have hb : (strContains "500" msg && specCarriesMcpTool a) = false := by
      rcases Bool.eq_false_or_eq_true (strContains "500" msg) with h5 | h5
      · rcases Bool.eq_false_or_eq_true (specCarriesMcpTool a) with hm | hm
        · exact absurd ⟨h5, hm⟩ hn
        · simp [hm]
      · simp [h5]
    rw [hb]
    simp

/-- Witness for C2: a concrete dict-shaped mcp agent and a concrete "500"
failure produce the fixed explanatory fragment. -/
theorem chat_failure_classification_on_mapping_definitions_witness :
    chatFailureFragments dictMcpAgent "Error code: 500" = [mcpKnownIssueMessage] :=
  (chat_failure_classification_on_mapping_definitions dictMcpAgent "Error code: 500"
    (by decide)).1 ⟨by decide, by decide⟩

lemma cio_glue (x p y : String) (ps : List String) (h : ContainsInOrder y ps) :
    ContainsInOrder (x ++ (p ++ y)) (p :: ps) := ⟨x, y, rfl, h⟩

lemma cio_extend (x y : String) (ps : List String) (h : ContainsInOrder y ps) :
    ContainsInOrder (x ++ y) ps := by
  cases ps with
  | nil => trivial
  | cons q qs =>
    obtain ⟨a, b, hab, hrest⟩ := h
    exact ⟨x ++ a, b, by rw [hab, String.append_assoc], hrest⟩

lemma gen_decomp (p pe : String) (caps rules : Option (List String)) :
    generate_agent_instructions p pe caps rules =
      "Eres un asistente especializado con el siguiente propósito:\n\n" ++
      ("PROPÓSITO PRINCIPAL:" ++ ("\n" ++ (p ++ ("\n\n" ++ ("PERSONALIDAD:" ++
      ("\n" ++ (pe ++ ("\n\n" ++ ("CAPACIDADES:" ++ ("\n" ++ (capabilitiesText caps ++
      ("\n\n" ++ ("REGLAS DE COMPORTAMIENTO:" ++ ("\n" ++ (rulesText rules ++
      ("\n\n" ++ ("FORMATO DE RESPUESTA:" ++
      "\n- Responde de manera clara y estructurada\n- Usa viñetas o numeración cuando sea apropiado\n- Incluye ejemplos cuando ayuden a clarificar\n"))))))))))))))))) := by
  unfold generate_agent_instructions
  rw [show ("Eres un asistente especializado con el siguiente propósito:\n\nPROPÓSITO PRINCIPAL:\n" : String) =
      "Eres un asistente especializado con el siguiente propósito:\n\n" ++ ("PROPÓSITO PRINCIPAL:" ++ "\n") from rfl,
    show ("\n\nPERSONALIDAD:\n" : String) = "\n\n" ++ ("PERSONALIDAD:" ++ "\n") from rfl,
    show ("\n\nCAPACIDADES:\n" : String) = "\n\n" ++ ("CAPACIDADES:" ++ "\n") from rfl,
    show ("\n\nREGLAS DE COMPORTAMIENTO:\n" : String) = "\n\n" ++ ("REGLAS DE COMPORTAMIENTO:" ++ "\n") from rfl,
    show ("\n\nFORMATO DE RESPUESTA:\n- Responde de manera clara y estructurada\n- Usa viñetas o numeración cuando sea apropiado\n- Incluye ejemplos cuando ayuden a clarificar\n" : String) =
      "\n\n" ++ ("FORMATO DE RESPUESTA:" ++ "\n- Responde de manera clara y estructurada\n- Usa viñetas o numeración cuando sea apropiado\n- Incluye ejemplos cuando ayuden a clarificar\n") from rfl]
  simp only [String.append_assoc]

/-- C7: the composed instruction document contains the four fixed section
headers in fixed order plus the closing response-format section, echoes the
purpose text verbatim, and substitutes exactly two default capability
phrases (resp. exactly four default rules) when the corresponding list is
empty or absent; the composer is a total function. -/
theorem instruction_document_structure
    (p pe : String) (caps rules : Option (List String)) :
    ContainsInOrder (generate_agent_instructions p pe caps rules)
      ["PROPÓSITO PRINCIPAL:", "PERSONALIDAD:", "CAPACIDADES:",
       "REGLAS DE COMPORTAMIENTO:", "FORMATO DE RESPUESTA:"] ∧
    (∃ a b, generate_agent_instructions p pe caps rules = a ++ (p ++ b)) ∧
    ((caps = none ∨ caps = some []) →
      capabilitiesText caps =
        String.intercalate "\n" (defaultCapabilities.map (fun cap => "- " ++ cap)) ∧
      defaultCapabilities.length = 2) ∧
    ((rules = none ∨ rules = some []) →
      rulesText rules =
        String.intercalate "\n" (defaultRules.enum.map (fun q => numberedRule q.1 q.2)) ∧
      defaultRules.length = 4) := by
  refine ⟨?_, ?_, ?_, ?_⟩
  · rw [gen_decomp]
    apply cio_glue
    apply cio_extend
    apply cio_extend
    apply cio_glue
    apply cio_extend
    apply cio_extend
    apply cio_glue
    apply cio_extend
    apply cio_extend
    apply cio_glue
    apply cio_extend
    apply cio_extend
    apply cio_glue
    trivial
  · exact ⟨"Eres un asistente especializado con el siguiente propósito:\n\nPROPÓSITO PRINCIPAL:\n",
      "\n\nPERSONALIDAD:\n" ++ (pe ++ ("\n\nCAPACIDADES:\n" ++ (capabilitiesText caps ++
      ("\n\nREGLAS DE COMPORTAMIENTO:\n" ++ (rulesText rules ++
      "\n\nFORMATO DE RESPUESTA:\n- Responde de manera clara y estructurada\n- Usa viñetas o numeración cuando sea apropiado\n- Incluye ejemplos cuando ayuden a clarificar\n"))))),
      rfl⟩
  · rintro (h | h) <;> subst h <;> exact ⟨rfl, rfl⟩
  · rintro (h | h) <;> subst h <;> exact ⟨rfl, rfl⟩

/-- Witness for C7: concrete instantiation with absent capability list. -/
theorem instruction_document_structure_witness :
    capabilitiesText none =
      String.intercalate "\n" (defaultCapabilities.map (fun cap => "- " ++ cap)) ∧
    defaultCapabilities.length = 2 :=
  (instruction_document_structure "Responder FAQs" "amable" none none).2.2.1 (Or.inl rfl)

/-- C5: for every input string, the sanitized name matches the grammar
(first and last characters alphanumeric, only alphanumerics and single
hyphens, no consecutive hyphens) or is exactly the fallback "agent", and
its length is at most 63.  This covers in particular every non-empty
input. -/
theorem sanitize_output_grammar (s : String) :
    (matchesGrammar (sanitize s).data ∨ sanitize s = "agent") ∧
    (sanitize s).length ≤ 63 := by
  obtain ⟨hne, hall, hch, hhd, hlast, hlen⟩ := sanitizeL_props s.data
  constructor
  · left
    show matchesGrammar (sanitizeL s.data)
    refine ⟨?_, ?_, hall, hch⟩
    · cases hm : sanitizeL s.data with
      | nil => exact absurd hm hne
      | cons c t =>
        refine ⟨c, rfl, ?_⟩
        have hc_name : isNameChar c = true := by
          rw [hm, List.all_cons, Bool.and_eq_true] at hall
          exact hall.1
        exact alnum_of_nameChar c hc_name (hhd c (by rw [hm]; rfl))
    · have hrall : (sanitizeL s.data).reverse.all isNameChar = true :=
        all_rev _ _ hall
      cases hm : (sanitizeL s.data).reverse with
      | nil => exact absurd (List.reverse_eq_nil_iff.mp hm) hne
      | cons c t =>
        have hgl : (sanitizeL s.data).getLast? = some c := by
          rw [← List.head?_reverse, hm]
          rfl
        refine ⟨c, hgl, ?_⟩
        have hc_name : isNameChar c = true := by
          rw [hm, List.all_cons, Bool.and_eq_true] at hrall
          exact hrall.1
        exact alnum_of_nameChar c hc_name (hlast c hgl)
  · exact hlen

/-- Witness for C5 at the concrete input "FAQ Bot!!". -/
theorem sanitize_output_grammar_witness :
    (matchesGrammar (sanitize "FAQ Bot!!").data ∨ sanitize "FAQ Bot!!" = "agent") ∧
    (sanitize "FAQ Bot!!").length ≤ 63 :=
  sanitize_output_grammar "FAQ Bot!!"

/-- C6: the name sanitizer is idempotent: sanitizing an already-sanitized
name returns it unchanged. -/
theorem sanitize_idempotent (x : String) : sanitize (sanitize x) = sanitize x := by
  obtain ⟨hne, hall, hch, hhd, hlast, hlen⟩ := sanitizeL_props x.data
  have hfix : sanitizeL (sanitizeL x.data) = sanitizeL x.data :=
    sanitizeL_fix _ hne hall hch hhd hlast hlen
  show (⟨sanitizeL (sanitizeL x.data)⟩ : String) = ⟨sanitizeL x.data⟩
  rw [hfix]
